import Mathlib

/-!
# Verification of the bitwise-calc input core (src/src/app.rs)

Shallow embedding of the `App` struct and its methods from `src/src/app.rs`
(the three-operator variant cited by the claims; `src/src/main.rs` holds an
older two-operator copy of the same logic, noted where relevant).

Modelling conventions:
* The Rust `String` buffer is embedded as `List Char`: every buffer operation
  in the source works through `chars()` / `char_indices()`, and
  `String::insert` is called only at a boundary returned by `byte_index`,
  so the byte-level buffer is in exact correspondence with its character
  sequence.
* `i32` values are embedded as `Int`, with the i32 range enforced exactly
  where the source enforces it (the `parse::<i32>()` range check, and the
  overflow / division panics of `i32` arithmetic).
* Fallible evaluation (a Rust panic: division by zero, `i32` arithmetic
  overflow, the `unreachable!` arm) is embedded as `Option`: `none` means
  the process panics and there is no successor state.
* `usize` cursor arithmetic: `saturating_sub` on `usize` is `Nat`
  subtraction; `saturating_add` is `Nat` addition (no overflow at `2^64`
  is modelled, as the buffer length bounds make it unreachable).
* `str::trim` and `str::to_lowercase` are modelled on the ASCII fragment
  (`Char.isWhitespace` / `Char.toLower`), which agrees with Rust on every
  character that can reach the fixed ASCII operator vocabulary.
-/

/-- `enum InputMode` from `src/src/input_mode.rs` (re-declared verbatim in
`src/src/main.rs` lines 32-35): `Normal` or `Editing`. -/
inductive InputMode : Type
  | Normal
  | Editing
deriving DecidableEq, Repr

/-- The `App` struct, `src/src/app.rs` lines 14-22, fields in source order. -/
structure App : Type where
  input : List Char
  first_number : Option Int
  second_number : Option Int
  operator : Option String
  character_index : Nat
  input_mode : InputMode
  messages : List String
deriving DecidableEq, Repr

/-- `App::new`, `src/src/app.rs` lines 32-42. -/
def App.new : App :=
  { input := []
    first_number := none
    second_number := none
    operator := none
    input_mode := InputMode.Normal
    messages := []
    character_index := 0 }

/-- The i32 minimum, `-2^31`. -/
def i32Min : Int := -(2 ^ 31)

/-- The i32 maximum, `2^31 - 1`. -/
def i32Max : Int := 2 ^ 31 - 1

/-- `first + second` at type `i32` (`App::add`, lines 45-47): `some` of the
mathematical sum when it fits in i32, `none` (panic) on overflow. -/
def App.add (first second : Int) : Option Int :=
  if i32Min ≤ first + second ∧ first + second ≤ i32Max then some (first + second) else none

/-- `first - second` at type `i32` (`App::subtract`, lines 49-51). -/
def App.subtract (first second : Int) : Option Int :=
  if i32Min ≤ first - second ∧ first - second ≤ i32Max then some (first - second) else none

/-- `first / second` at type `i32` (`App::div`, lines 53-55): Rust `i32`
division truncates toward zero (`Int.tdiv`), panics when `second == 0`
and on the single overflowing pair `i32::MIN / -1`. -/
def App.div (first second : Int) : Option Int :=
  if second = 0 then none
  else if i32Min ≤ first.tdiv second ∧ first.tdiv second ≤ i32Max then some (first.tdiv second)
  else none

/-- `App::clamp_cursor`, lines 94-96: `new_cursor_pos.clamp(0, chars().count())`;
on `usize` the lower clamp is trivial, so this is `min`. -/
def App.clamp_cursor (a : App) (new_cursor_pos : Nat) : Nat :=
  min new_cursor_pos a.input.length

/-- `App::move_cursor_left`, lines 57-60: saturating decrement, then clamp. -/
def App.move_cursor_left (a : App) : App :=
  { a with character_index := a.clamp_cursor (a.character_index - 1) }

/-- `App::move_cursor_right`, lines 62-65: saturating increment, then clamp. -/
def App.move_cursor_right (a : App) : App :=
  { a with character_index := a.clamp_cursor (a.character_index + 1) }

/-- `App::enter_char`, lines 67-71: insert at the byte boundary of character
number `character_index` (`byte_index`, lines 73-79, falls back to the end of
the buffer when the cursor is past the last character, exactly as
`List.take` / `List.drop` saturate), then `move_cursor_right`. -/
def App.enter_char (a : App) (new_char : Char) : App :=
  ({ a with
      input := a.input.take a.character_index ++ new_char :: a.input.drop a.character_index
    }).move_cursor_right

/-- `App::delete_char`, lines 81-92: when the cursor is not at 0, rebuild the
buffer from `chars().take(cursor - 1)` chained with `chars().skip(cursor)`,
then `move_cursor_left`. -/
def App.delete_char (a : App) : App :=
  if a.character_index ≠ 0 then
    ({ a with
        input := a.input.take (a.character_index - 1) ++ a.input.drop a.character_index
      }).move_cursor_left
  else a

/-- `App::reset_cursor`, lines 98-100. -/
def App.reset_cursor (a : App) : App :=
  { a with character_index := 0 }

/-- `App::clear_messages`, lines 153-158: empty the log, unset all three
operand/operator fields; buffer, cursor and mode untouched. -/
def App.clear_messages (a : App) : App :=
  { a with messages := [], first_number := none, second_number := none, operator := none }

/-- `str::trim` on the character sequence: strip leading and trailing
whitespace. -/
def trim (s : List Char) : List Char :=
  ((s.dropWhile Char.isWhitespace).reverse.dropWhile Char.isWhitespace).reverse

/-- `trim().to_lowercase()` as used at line 120. -/
def lowerTrim (s : List Char) : List Char :=
  (trim s).map Char.toLower

/-- Value of a digit string, most significant first. -/
def digitsVal (ds : List Char) : Nat :=
  ds.foldl (fun acc d => acc * 10 + (d.toNat - 48)) 0

/-- The integer a string denotes under Rust's `i32::from_str` grammar —
an optional single `+`/`-` sign followed by one or more ASCII digits —
ignoring the i32 range: `some` of the mathematical value, `none` if the
string is not of that shape. -/
def denotesInt (s : List Char) : Option Int :=
  let signDigits : Int × List Char :=
    match s with
    | '+' :: rest => (1, rest)
    | '-' :: rest => (-1, rest)
    | _ => (1, s)
  if signDigits.2 ≠ [] ∧ signDigits.2.all Char.isDigit then
    some (signDigits.1 * digitsVal signDigits.2)
  else none

/-- `str::parse::<i32>()`, as called on trimmed input at lines 104 and 112.
Rust checks overflow digit by digit while accumulating; for a sign-and-digits
string that fails exactly when the denoted mathematical value is outside the
i32 range, so it is embedded as the denotation filtered by the range. -/
def parseI32 (s : List Char) : Option Int :=
  (denotesInt s).bind fun v => if i32Min ≤ v ∧ v ≤ i32Max then some v else none

/-- The field-advancing phase of `App::submit_message`: the
`if`/`else if`/`else if` chain of `src/src/app.rs` lines 103-129, which
parses the buffer into whichever of `first_number`, `second_number`,
`operator` is still unset (or logs a validation error). -/
def App.stepFields (a : App) : App :=
  match a.first_number with
  | none =>
    match parseI32 (trim a.input) with
    | some num =>
      { a with
        first_number := some num
        messages := a.messages ++ [s!"First number entered: {num}"] }
    | none =>
      { a with messages := a.messages ++ ["Invalid input! Please enter a valid first number."] }
  | some _ =>
    match a.second_number with
    | none =>
      match parseI32 (trim a.input) with
      | some num =>
        { a with
          second_number := some num
          messages := a.messages ++ [s!"Second number entered: {num}"] }
      | none =>
        { a with messages := a.messages ++ ["Invalid input! Please enter a valid second number."] }
    | some _ =>
      match a.operator with
      | none =>
        let trimmed_input := lowerTrim a.input
        if trimmed_input = "+".toList ∨ trimmed_input = "plus".toList then
          { a with operator := some "+" }
        else if trimmed_input = "-".toList ∨ trimmed_input = "minus".toList then
          { a with operator := some "-" }
        else if trimmed_input = "/".toList ∨ trimmed_input = "div".toList then
          { a with operator := some "/" }
        else
          { a with
            messages := a.messages ++
              ["Invalid operator! Please enter a valid operator: '+' (plus), '-' (minus), or '/' (div)."] }
      | some _ => a

/-- The `match operator.as_str()` of lines 134-139: dispatch to `add`,
`subtract`, `div`; the wildcard arm is `unreachable!`, i.e. a panic (`none`). -/
def evalOp (operator : String) (first second : Int) : Option Int :=
  if operator = "+" then App.add first second
  else if operator = "-" then App.subtract first second
  else if operator = "/" then App.div first second
  else none

/-- `App::submit_message`, lines 102-151: advance the pending field, then if
all three fields are set compute the result (possibly panicking — `none`),
log `"{first} {operator} {second} = {result}"` and unset the fields; finally
clear the buffer and reset the cursor. -/
def App.submit_message (a : App) : Option App :=
  let b := a.stepFields
  match b.first_number, b.second_number, b.operator with
  | some first, some second, some operator =>
    match evalOp operator first second with
    | some result =>
      some { b with
        messages := b.messages ++ [s!"{first} {operator} {second} = {result}"]
        first_number := none
        second_number := none
        operator := none
        input := []
        character_index := 0 }
    | none => none
  | _, _, _ => some { b with input := [], character_index := 0 }

/-- Submitting the buffer text `t`: the state after the user has typed `t`
into the field (buffer holds `t`, cursor at its end) and pressed Enter. -/
def submitText (a : App) (t : String) : Option App :=
  App.submit_message { a with input := t.toList, character_index := t.toList.length }

example : App.div 6 3 = some 2 := by decide
example : App.div 7 0 = none := by decide
example : parseI32 (trim "  7 ".toList) = some 7 := by decide
example : parseI32 (trim "abc".toList) = none := by decide
example : parseI32 "2147483647".toList = some 2147483647 := by decide
example : parseI32 "2147483648".toList = none := by decide
example : parseI32 "-2147483648".toList = some (-2147483648) := by decide
example :
    submitText App.new "5" =
      some { App.new with first_number := some 5, messages := ["First number entered: 5"] } := by
  decide

/-- C1: from a fresh form, submitting "7", then "0", then "div" reaches the
`/` computation with second operand 0; `App::div` performs `7 / 0`, which
panics (`none`): the process crashes, no error entry or fallback value is
produced. This refutes the claimed no-crash handling and exhibits the
division-by-zero defect the design notes flag. -/
theorem C1_div_by_zero_panics :
    ((submitText App.new "7").bind fun a => (submitText a "0").bind fun b => submitText b "div")
      = none ∧
    App.div 7 0 = none := by
  decide

/-- C2: the scenario 5, 3, plus from a fresh form: submitting "5" appends
"First number entered: 5" and sets `first_number := some 5`; submitting "3"
appends "Second number entered: 3" and sets `second_number := some 3`;
submitting "plus" appends "5 + 3 = 8" and unsets all three fields. -/
theorem C2_five_three_plus :
    submitText App.new "5" =
      some { App.new with
        first_number := some 5
        messages := ["First number entered: 5"] } ∧
    submitText
        { App.new with
          first_number := some 5
          messages := ["First number entered: 5"] } "3" =
      some { App.new with
        first_number := some 5
        second_number := some 3
        messages := ["First number entered: 5", "Second number entered: 3"] } ∧
    submitText
        { App.new with
          first_number := some 5
          second_number := some 3
          messages := ["First number entered: 5", "Second number entered: 3"] } "plus" =
      some { App.new with
        messages := ["First number entered: 5", "Second number entered: 3", "5 + 3 = 8"] } := by
  decide

/-- When the first slot is pending and the trimmed text does not parse,
`submit` only appends the invalid-first-number entry, clears the buffer and
resets the cursor; no field changes. -/
theorem submit_parse_fail_first (a : App) (t : String)
    (h1 : a.first_number = none) (h2 : parseI32 (trim t.toList) = none) :
    submitText a t =
      some { a with
        messages := a.messages ++ ["Invalid input! Please enter a valid first number."]
        input := []
        character_index := 0 } := by
  simp only [String.toList] at h2
  unfold submitText App.submit_message App.stepFields
  simp [h1, h2]

/-- When the second slot is pending and the trimmed text does not parse,
`submit` only appends the invalid-second-number entry, clears the buffer and
resets the cursor; no field changes. -/
theorem submit_parse_fail_second (a : App) (t : String) (f : Int)
    (h1 : a.first_number = some f) (h1b : a.second_number = none)
    (h2 : parseI32 (trim t.toList) = none) :
    submitText a t =
      some { a with
        messages := a.messages ++ ["Invalid input! Please enter a valid second number."]
        input := []
        character_index := 0 } := by
  simp only [String.toList] at h2
  unfold submitText App.submit_message App.stepFields
  simp [h1, h1b, h2]

/-- C5: when `first_number` is unset, submitting text whose trimmed form does
not parse as a signed integer appends "Invalid input! Please enter a valid
first number.", leaves `first_number` unset (the record equality keeps every
field of `a`, so `first_number` is still `none` by `h1`), and leaves the
buffer empty with the cursor at 0. -/
theorem C5_invalid_first_number (a : App) (t : String)
    (h1 : a.first_number = none) (h2 : parseI32 (trim t.toList) = none) :
    submitText a t =
      some { a with
        messages := a.messages ++ ["Invalid input! Please enter a valid first number."]
        input := []
        character_index := 0 } ∧
    ∀ b, submitText a t = some b → b.first_number = none := by
  have h := submit_parse_fail_first a t h1 h2
  refine ⟨h, fun b hb => ?_⟩
  rw [h] at hb
  cases hb
  exact h1

/-- Witness for C5 at the spec's own example: fresh form, text "abc". -/
theorem C5_invalid_first_number_witness :
    submitText App.new "abc" =
      some { App.new with
        messages := App.new.messages ++ ["Invalid input! Please enter a valid first number."]
        input := []
        character_index := 0 } ∧
    ∀ b, submitText App.new "abc" = some b → b.first_number = none :=
  C5_invalid_first_number App.new "abc" rfl (by decide)

/-- The cursor invariant of the spec: `0 <= cursor <= character_count`;
the lower bound is inherent to `Nat`. -/
def cursorInv (a : App) : Prop :=
  a.character_index ≤ a.input.length

/-- Whenever `submit_message` returns (does not panic), the buffer is empty
and the cursor is back at 0 — lines 149-150 run on every non-panicking path. -/
theorem submit_some_shape {a a' : App} (h : a.submit_message = some a') :
    a'.input = [] ∧ a'.character_index = 0 := by
  unfold App.submit_message at h
  rcases hf : a.stepFields.first_number with _ | f
  · simp only [hf] at h
    injection h with h'
    subst h'
    exact ⟨rfl, rfl⟩
  · rcases hs : a.stepFields.second_number with _ | s
    · simp only [hf, hs] at h
      injection h with h'
      subst h'
      exact ⟨rfl, rfl⟩
    · rcases ho : a.stepFields.operator with _ | o
      · simp only [hf, hs, ho] at h
        injection h with h'
        subst h'
        exact ⟨rfl, rfl⟩
      · simp only [hf, hs, ho] at h
        rcases he : evalOp o f s with _ | r
        · rw [he] at h
          cases h
        · rw [he] at h
          injection h with h'
          subst h'
          exact ⟨rfl, rfl⟩

/-- C3: each text-field operation, and `submit` whenever it returns (does not
panic), preserves `0 <= cursor <= character_count(content)`, counted in
characters (the buffer is a `List Char`, so `List.length` is the character
count, not a byte count). -/
theorem C3_cursor_invariant_preserved (a : App) (c : Char) (h : cursorInv a) :
    cursorInv (a.enter_char c) ∧ cursorInv a.delete_char ∧ cursorInv a.move_cursor_left ∧
    cursorInv a.move_cursor_right ∧ cursorInv a.reset_cursor ∧
    ∀ a', a.submit_message = some a' → cursorInv a' := by
  have hleft : ∀ b : App, cursorInv b.move_cursor_left := fun b => by
    simp [cursorInv, App.move_cursor_left, App.clamp_cursor]
  have hright : ∀ b : App, cursorInv b.move_cursor_right := fun b => by
    simp [cursorInv, App.move_cursor_right, App.clamp_cursor]
  refine ⟨hright _, ?_, hleft a, hright a, Nat.zero_le _, ?_⟩
  · unfold App.delete_char
    split
    · exact hleft _
    · exact h
  · intro a' ha'
    have hsh := submit_some_shape ha'
    show a'.character_index ≤ a'.input.length
    rw [hsh.1, hsh.2]
    exact Nat.le_refl 0

/-- Witness for C3 at the fresh state and character `x`. -/
theorem C3_cursor_invariant_preserved_witness :
    cursorInv (App.new.enter_char 'x') ∧ cursorInv App.new.delete_char ∧
    cursorInv App.new.move_cursor_left ∧ cursorInv App.new.move_cursor_right ∧
    cursorInv App.new.reset_cursor ∧
    ∀ a', App.new.submit_message = some a' → cursorInv a' :=
  C3_cursor_invariant_preserved App.new 'x' (Nat.le_refl 0)

/-- C6: `delete_char` at cursor 0 is a no-op; at any valid cursor position
`> 0` it removes exactly the character at character index `cursor - 1`
(characters before that index concatenated with those from `cursor` onward)
and decreases the cursor by one. -/
theorem C6_delete_before_cursor (a : App) (h : a.character_index ≤ a.input.length) :
    (a.character_index = 0 → a.delete_char = a) ∧
    (a.character_index ≠ 0 →
      a.delete_char.input =
        a.input.take (a.character_index - 1) ++ a.input.drop a.character_index ∧
      a.delete_char.character_index = a.character_index - 1) := by
  constructor
  · intro h0
    simp [App.delete_char, h0]
  · intro h0
    rw [App.delete_char, if_pos h0]
    refine ⟨rfl, ?_⟩
    show min (a.character_index - 1) (List.length _) = a.character_index - 1
    rw [List.length_append, List.length_take, List.length_drop]
    omega

/-- Witness for C6 at buffer "ab", cursor 1: deleting removes char 0. -/
theorem C6_delete_before_cursor_witness :
    (({ App.new with input := "ab".toList, character_index := 1 } : App).character_index = 0 →
      ({ App.new with input := "ab".toList, character_index := 1 } : App).delete_char =
        { App.new with input := "ab".toList, character_index := 1 }) ∧
    (({ App.new with input := "ab".toList, character_index := 1 } : App).character_index ≠ 0 →
      ({ App.new with input := "ab".toList, character_index := 1 } : App).delete_char.input =
        "ab".toList.take 0 ++ "ab".toList.drop 1 ∧
      ({ App.new with input := "ab".toList, character_index := 1 } : App).delete_char.character_index = 0) :=
  C6_delete_before_cursor { App.new with input := "ab".toList, character_index := 1 } (by decide)

/-- C7: for any buffer, character and cursor position within `0..=len`,
`enter_char` inserts the character at the cursor's character position,
increases the character count by exactly 1 and advances the cursor by
exactly 1. -/
theorem C7_insert_char (a : App) (c : Char) (h : a.character_index ≤ a.input.length) :
    (a.enter_char c).input =
      a.input.take a.character_index ++ c :: a.input.drop a.character_index ∧
    (a.enter_char c).input.length = a.input.length + 1 ∧
    (a.enter_char c).character_index = a.character_index + 1 := by
  refine ⟨rfl, ?_, ?_⟩
  · show (a.input.take a.character_index ++ c :: a.input.drop a.character_index).length = _
    rw [List.length_append, List.length_take, List.length_cons, List.length_drop]
    omega
  · show min (a.character_index + 1) (List.length _) = a.character_index + 1
    rw [List.length_append, List.length_take, List.length_cons, List.length_drop]
    omega

/-- Witness for C7: inserting `z` into "ab" at cursor 1. -/
theorem C7_insert_char_witness :
    (({ App.new with input := "ab".toList, character_index := 1 } : App).enter_char 'z').input =
      "ab".toList.take 1 ++ 'z' :: "ab".toList.drop 1 ∧
    (({ App.new with input := "ab".toList, character_index := 1 } : App).enter_char 'z').input.length =
      "ab".toList.length + 1 ∧
    (({ App.new with input := "ab".toList, character_index := 1 } : App).enter_char 'z').character_index = 2 :=
  C7_insert_char { App.new with input := "ab".toList, character_index := 1 } 'z' (by decide)

/-- C8: `move_cursor_left` at cursor 0 stays at 0; `move_cursor_right` at
cursor `len` stays at `len`; away from the boundaries, left-then-right and
right-then-left both return the cursor to `p`; none of the moves changes the
buffer contents. -/
theorem C8_move_roundtrip (a : App) (p : Nat) (hp0 : 0 < p) (hpl : p < a.input.length) :
    ({ a with character_index := 0 } : App).move_cursor_left.character_index = 0 ∧
    ({ a with character_index := a.input.length } : App).move_cursor_right.character_index =
      a.input.length ∧
    ({ a with character_index := p } : App).move_cursor_left.move_cursor_right.character_index = p ∧
    ({ a with character_index := p } : App).move_cursor_right.move_cursor_left.character_index = p ∧
    ∀ b : App, b.move_cursor_left.input = b.input ∧ b.move_cursor_right.input = b.input := by
  refine ⟨?_, ?_, ?_, ?_, fun b => ⟨rfl, rfl⟩⟩ <;>
    simp [App.move_cursor_left, App.move_cursor_right, App.clamp_cursor] <;> omega

/-- Witness for C8 at buffer "abc", interior position 1. -/
theorem C8_move_roundtrip_witness :
    ({ App.new with input := "abc".toList, character_index := 0 } : App).move_cursor_left.character_index = 0 ∧
    ({ App.new with input := "abc".toList, character_index := "abc".toList.length } : App).move_cursor_right.character_index =
      "abc".toList.length ∧
    ({ App.new with input := "abc".toList, character_index := 1 } : App).move_cursor_left.move_cursor_right.character_index = 1 ∧
    ({ App.new with input := "abc".toList, character_index := 1 } : App).move_cursor_right.move_cursor_left.character_index = 1 ∧
    ∀ b : App, b.move_cursor_left.input = b.input ∧ b.move_cursor_right.input = b.input :=
  C8_move_roundtrip { App.new with input := "abc".toList } 1 (by decide) (by decide)

/-- C4: with both operands set and the operator pending, the lower-cased
trimmed text is matched against the fixed vocabulary: "+"/"plus" sets the
operator to "+", "-"/"minus" to "-", "/"/"div" to "/"; any other text makes
`submit` append the invalid-operator entry and leaves the operator unset. -/
theorem C4_operator_vocabulary (a : App)
    (h1 : a.first_number.isSome) (h2 : a.second_number.isSome) (h3 : a.operator = none) :
    (lowerTrim a.input = "+".toList ∨ lowerTrim a.input = "plus".toList →
      a.stepFields = { a with operator := some "+" }) ∧
    (lowerTrim a.input = "-".toList ∨ lowerTrim a.input = "minus".toList →
      a.stepFields = { a with operator := some "-" }) ∧
    (lowerTrim a.input = "/".toList ∨ lowerTrim a.input = "div".toList →
      a.stepFields = { a with operator := some "/" }) ∧
    ((lowerTrim a.input ≠ "+".toList ∧ lowerTrim a.input ≠ "plus".toList ∧
      lowerTrim a.input ≠ "-".toList ∧ lowerTrim a.input ≠ "minus".toList ∧
      lowerTrim a.input ≠ "/".toList ∧ lowerTrim a.input ≠ "div".toList) →
      a.stepFields.operator = none ∧
      a.submit_message =
        some { a with
          messages := a.messages ++
            ["Invalid operator! Please enter a valid operator: '+' (plus), '-' (minus), or '/' (div)."]
          input := []
          character_index := 0 }) := by
  obtain ⟨f, hf⟩ := Option.isSome_iff_exists.mp h1
  obtain ⟨s, hs⟩ := Option.isSome_iff_exists.mp h2
  have hstep : ∀ goalOp : String,
      (lowerTrim a.input = "+".toList ∨ lowerTrim a.input = "plus".toList) →
      goalOp = "+" → a.stepFields = { a with operator := some goalOp } := by
    intro goalOp hor hgoal
    subst hgoal
    unfold App.stepFields
    rw [hf, hs, h3]
    simp only [if_pos hor]
  refine ⟨fun hor => hstep "+" hor rfl, ?_, ?_, ?_⟩
  · intro hor
    unfold App.stepFields
    rw [hf, hs, h3]
    have hne : ¬(lowerTrim a.input = "+".toList ∨ lowerTrim a.input = "plus".toList) := by
      rcases hor with hor | hor <;> rw [hor] <;> decide
    simp only [if_neg hne, if_pos hor]
  · intro hor
    unfold App.stepFields
    rw [hf, hs, h3]
    have hne1 : ¬(lowerTrim a.input = "+".toList ∨ lowerTrim a.input = "plus".toList) := by
      rcases hor with hor | hor <;> rw [hor] <;> decide
    have hne2 : ¬(lowerTrim a.input = "-".toList ∨ lowerTrim a.input = "minus".toList) := by
      rcases hor with hor | hor <;> rw [hor] <;> decide
    simp only [if_neg hne1, if_neg hne2, if_pos hor]
  · intro ⟨n1, n2, n3, n4, n5, n6⟩
    have hbad : a.stepFields =
        { a with
          messages := a.messages ++
            ["Invalid operator! Please enter a valid operator: '+' (plus), '-' (minus), or '/' (div)."] } := by
      unfold App.stepFields
      rw [hf, hs, h3]
      simp only [if_neg (by tauto : ¬(lowerTrim a.input = "+".toList ∨ lowerTrim a.input = "plus".toList)),
        if_neg (by tauto : ¬(lowerTrim a.input = "-".toList ∨ lowerTrim a.input = "minus".toList)),
        if_neg (by tauto : ¬(lowerTrim a.input = "/".toList ∨ lowerTrim a.input = "div".toList))]
    constructor
    · rw [hbad]
      exact h3
    · unfold App.submit_message
      rw [hbad]
      simp [h3]

/-- Witness for C4: operands 1 and 2 set, operator pending, text "div". -/
theorem C4_operator_vocabulary_witness :
    (lowerTrim "div".toList = "/".toList ∨ lowerTrim "div".toList = "div".toList) ∧
    ({ App.new with
        first_number := some 1
        second_number := some 2
        input := "div".toList } : App).stepFields =
      { App.new with
        first_number := some 1
        second_number := some 2
        input := "div".toList
        operator := some "/" } :=
  ⟨Or.inr (by decide),
    (C4_operator_vocabulary
      { App.new with
        first_number := some 1
        second_number := some 2
        input := "div".toList }
      (by decide) (by decide) rfl).2.2.1 (Or.inr (by decide))⟩

/-- One dispatch of the event loop (`App::run`, lines 161-192) that mutates
the form: submit (Enter, when it does not panic), character entry,
backspace, cursor moves, and the clear action from Normal mode. -/
inductive Step : App → App → Prop
  | submit {a a' : App} : a.submit_message = some a' → Step a a'
  | insert {a : App} (c : Char) : Step a (a.enter_char c)
  | delete {a : App} : Step a a.delete_char
  | left {a : App} : Step a a.move_cursor_left
  | right {a : App} : Step a a.move_cursor_right
  | clear {a : App} : Step a a.clear_messages

/-- States reachable from `App::new` by event-loop dispatches. -/
inductive Reachable : App → Prop
  | init : Reachable App.new
  | step {a a' : App} : Reachable a → Step a a' → Reachable a'

/-- The operator field is unset or holds one of the three vocabulary
symbols. -/
def opOk (a : App) : Prop :=
  a.operator = none ∨ a.operator = some "+" ∨ a.operator = some "-" ∨ a.operator = some "/"

/-- `stepFields` either leaves the operator field unchanged or sets it to one
of the three vocabulary symbols. -/
theorem stepFields_operator_cases (a : App) :
    a.stepFields.operator = a.operator ∨ a.stepFields.operator = some "+" ∨
    a.stepFields.operator = some "-" ∨ a.stepFields.operator = some "/" := by
  unfold App.stepFields
  rcases a.first_number with _ | f
  · rcases parseI32 (trim a.input) with _ | n <;> simp
  · rcases a.second_number with _ | s
    · rcases parseI32 (trim a.input) with _ | n <;> simp
    · rcases ho : a.operator with _ | o
      · simp only
        split
        · simp
        · split
          · simp
          · split
            · simp
            · simp [ho]
      · simp [ho]

/-- A non-panicking `submit` preserves `opOk`. -/
theorem submit_preserves_opOk {a a' : App} (h : opOk a) (hs : a.submit_message = some a') :
    opOk a' := by
  have hcases := stepFields_operator_cases a
  unfold App.submit_message at hs
  rcases hf : a.stepFields.first_number with _ | f
  · simp only [hf] at hs
    injection hs with hs'
    subst hs'
    show a.stepFields.operator = none ∨ _
    rcases hcases with hc | hc | hc | hc <;> rw [hc] <;> [skip; simp; simp; simp]
    rcases h with h | h | h | h <;> simp [h]
  · rcases hsn : a.stepFields.second_number with _ | s
    · simp only [hf, hsn] at hs
      injection hs with hs'
      subst hs'
      show a.stepFields.operator = none ∨ _
      rcases hcases with hc | hc | hc | hc <;> rw [hc] <;> [skip; simp; simp; simp]
      rcases h with h | h | h | h <;> simp [h]
    · rcases ho : a.stepFields.operator with _ | o
      · simp only [hf, hsn, ho] at hs
        injection hs with hs'
        subst hs'
        exact Or.inl rfl
      · simp only [hf, hsn, ho] at hs
        rcases he : evalOp o f s with _ | r
        · rw [he] at hs
          cases hs
        · rw [he] at hs
          injection hs with hs'
          subst hs'
          exact Or.inl rfl

/-- Every event-loop dispatch preserves `opOk`. -/
theorem step_preserves_opOk {a a' : App} (h : opOk a) (hs : Step a a') : opOk a' := by
  cases hs with
  | submit hsub => exact submit_preserves_opOk h hsub
  | insert c => exact h
  | delete =>
    unfold App.delete_char
    split
    · exact h
    · exact h
  | left => exact h
  | right => exact h
  | clear => exact Or.inl rfl

/-- Every reachable state satisfies `opOk`. -/
theorem reachable_opOk {a : App} (h : Reachable a) : opOk a := by
  induction h with
  | init => exact Or.inl rfl
  | step _ hs ih => exact step_preserves_opOk ih hs

/-- C9: in every state reachable from `App::new` by submit, insert, delete,
move and clear dispatches, the operator field, whenever set, is one of "+",
"-", "/" — and the same holds after the field-advancing phase of a further
`submit` from that state, which is exactly the operator value inspected by
the result-computation match: the wildcard (`unreachable!`) arm is therefore
never executed. -/
theorem C9_operator_vocabulary_invariant (a : App) (h : Reachable a) :
    (a.operator = none ∨ a.operator = some "+" ∨ a.operator = some "-" ∨
      a.operator = some "/") ∧
    (a.stepFields.operator = none ∨ a.stepFields.operator = some "+" ∨
      a.stepFields.operator = some "-" ∨ a.stepFields.operator = some "/") := by
  have ho := reachable_opOk h
  refine ⟨ho, ?_⟩
  rcases stepFields_operator_cases a with hc | hc | hc | hc
  · rw [hc]
    exact ho
  · rw [hc]
    simp
  · rw [hc]
    simp
  · rw [hc]
    simp

/-- Witness for C9 at the initial state. -/
theorem C9_operator_vocabulary_invariant_witness :
    (App.new.operator = none ∨ App.new.operator = some "+" ∨ App.new.operator = some "-" ∨
      App.new.operator = some "/") ∧
    (App.new.stepFields.operator = none ∨ App.new.stepFields.operator = some "+" ∨
      App.new.stepFields.operator = some "-" ∨ App.new.stepFields.operator = some "/") :=
  C9_operator_vocabulary_invariant App.new Reachable.init

/-- C10: operands are parsed and stored as 32-bit signed integers: any
trimmed text denoting an integer outside `[-2^31, 2^31 - 1]` fails
`parse::<i32>()` and is handled exactly like non-numeric text — the
invalid-number entry for the pending slot is appended and the slot stays
unset (the result keeps every field of `a`). -/
theorem C10_out_of_range_is_invalid (a : App) (t : String) (v : Int)
    (hd : denotesInt (trim t.toList) = some v) (hr : v < i32Min ∨ i32Max < v) :
    parseI32 (trim t.toList) = none ∧
    (a.first_number = none →
      submitText a t =
        some { a with
          messages := a.messages ++ ["Invalid input! Please enter a valid first number."]
          input := []
          character_index := 0 }) ∧
    (∀ f, a.first_number = some f → a.second_number = none →
      submitText a t =
        some { a with
          messages := a.messages ++ ["Invalid input! Please enter a valid second number."]
          input := []
          character_index := 0 }) := by
  have hp : parseI32 (trim t.toList) = none := by
    rw [parseI32, hd, Option.some_bind, if_neg]
    intro ⟨hlo, hhi⟩
    rcases hr with hr | hr
    · exact absurd hlo (not_le.mpr hr)
    · exact absurd hhi (not_le.mpr hr)
  exact ⟨hp, fun h1 => submit_parse_fail_first a t h1 hp,
    fun f h1 h2 => submit_parse_fail_second a t f h1 h2 hp⟩

/-- Witness for C10 at `2^31` itself, one past `i32::MAX`, on a fresh form. -/
theorem C10_out_of_range_is_invalid_witness :
    parseI32 (trim "2147483648".toList) = none ∧
    submitText App.new "2147483648" =
      some { App.new with
        messages := App.new.messages ++ ["Invalid input! Please enter a valid first number."]
        input := []
        character_index := 0 } := by
  have h := C10_out_of_range_is_invalid App.new "2147483648" 2147483648 (by decide) (by decide)
  exact ⟨h.1, h.2.1 rfl⟩
